import Mathlib

/-!
Verification of the DevAlley extension response-interpretation pipeline.

The development shallowly embeds the core logic of `src/extension.ts` and
`src/SidebarProvider.ts`:

* the suggestion parser `parseCompletionResponse` (fence stripping, a model
  of the host `JSON.parse`, the permissive field mapping, and the heuristic
  line-based fallback);
* the backend request layer `BackendService` (`query`, `queryChat`,
  `queryCompletion`) with an explicit transport oracle and a call log;
* the sidebar session state (`_authToken` / `_userInfo`), its login,
  logout, `clearAuth` and `updateAuthToken` operations, and the webview
  `send` / `logout` message handlers;
* the webview `formatResponse` segmentation (fenced code-block extraction,
  inline code-span extraction with the mutable-string `exec` loop),
  placeholder generation, placeholder restoration via first-occurrence
  string replacement, and `escapeHtml`.

JavaScript strings are modelled as `List Char`.  Regular-expression scans
are translated to executable left-to-right scans with the exact
backtracking behaviour of the source patterns; loops whose termination is
not structural take an explicit fuel argument that is instantiated with a
bound the loop can never reach (each iteration either consumes input
characters or removes backticks), so the fuelled function agrees with the
source loop on every input.
-/

namespace DevAlley

/-- Backtick character, written by code point to keep it out of literals. -/
def btChar : Char := Char.ofNat 96

/-- Double-quote character. -/
def dqChar : Char := Char.ofNat 34

/-- Single-quote character. -/
def sqChar : Char := Char.ofNat 39

/-- JavaScript regular-expression class `\s` and the characters removed by
`String.prototype.trim`, restricted to the ASCII range (the only range the
embedded texts use): space, tab, line feed, carriage return, vertical tab,
form feed. -/
def isJsWs (c : Char) : Bool :=
  c = ' ' || c = '\t' || c = '\n' || c = '\r' || c = Char.ofNat 11 || c = Char.ofNat 12

/-- JavaScript regular-expression class `\w`: ASCII letters, digits and
underscore. -/
def isWordChar (c : Char) : Bool :=
  (c ≥ 'a' && c ≤ 'z') || (c ≥ 'A' && c ≤ 'Z') || (c ≥ '0' && c ≤ '9') || c = '_'

/-- Drop the longest suffix whose characters satisfy `p`. -/
def dropRightWhile (p : Char → Bool) (l : List Char) : List Char :=
  (l.reverse.dropWhile p).reverse

/-- Model of `String.prototype.trim`. -/
def jsTrim (s : List Char) : List Char :=
  dropRightWhile isJsWs (s.dropWhile isJsWs)

/-- Model of `String.prototype.split('\n')`. -/
def splitLines : List Char → List (List Char)
  | [] => [[]]
  | c :: t =>
    if c = '\n' then [] :: splitLines t
    else
      match splitLines t with
      | [] => [[c]]
      | h :: r => (c :: h) :: r

/-- Model of `String.prototype.replace(pat, repl)` with a plain-string
pattern: replace the first (leftmost) occurrence of `pat`, or return the
string unchanged when `pat` does not occur. -/
def replaceFirst (s pat repl : List Char) : List Char :=
  if pat.isPrefixOf s then repl ++ s.drop pat.length
  else
    match s with
    | [] => []
    | c :: t => c :: replaceFirst t pat repl

/-- Model of `String.prototype.includes(pat)`. -/
def containsSub (s pat : List Char) : Bool :=
  if pat.isPrefixOf s then true
  else
    match s with
    | [] => false
    | _ :: t => containsSub t pat

/-! ## JavaScript values and a model of `JSON.parse`

The suggestion parser feeds the reply through the host `JSON.parse` and
then reads fields off the decoded values with truthiness-based defaulting.
`JSVal` models the JavaScript values that can arise; `jsonParse` models
`JSON.parse` on the fragment the program exercises (numbers are integers:
the embedded texts never use fractional or exponent literals, and string
escapes cover the simple escape characters, not `\uXXXX`). -/

/-- A JavaScript value, as produced by `JSON.parse` plus `undefined`. -/
inductive JSVal where
  | undefinedV
  | null
  | bool (b : Bool)
  | num (n : Int)
  | str (s : List Char)
  | arr (elems : List JSVal)
  | obj (fields : List (List Char × JSVal))
deriving Repr, Inhabited

/-- Equality of a value with a given string (used to state concrete
expectations without a decidable equality on the nested `JSVal` type). -/
def JSVal.eqStr : JSVal → List Char → Bool
  | .str t, s => t = s
  | _, _ => false

/-- Is the value an array (`Array.isArray`)? -/
def JSVal.isArr : JSVal → Bool
  | .arr _ => true
  | _ => false

/-- JavaScript truthiness of a value. -/
def truthy : JSVal → Bool
  | .undefinedV => false
  | .null => false
  | .bool b => b
  | .num n => n ≠ 0
  | .str s => s ≠ []
  | .arr _ => true
  | .obj _ => true

/-- JavaScript `a || b`. -/
def jsOr (a b : JSVal) : JSVal :=
  if truthy a then a else b

/-- JavaScript member access `v.name`: throws a `TypeError` on `null` and
`undefined`, looks the field up on objects, and yields `undefined` on every
other value (primitives and arrays have none of the accessed fields). -/
def jsGet (v : JSVal) (name : List Char) : Except Unit JSVal :=
  match v with
  | .undefinedV => .error ()
  | .null => .error ()
  | .obj fields =>
    match fields.find? (fun p => p.1 = name) with
    | some p => .ok p.2
    | none => .ok .undefinedV
  | _ => .ok .undefinedV

/-- JSON whitespace characters. -/
def isJsonWs (c : Char) : Bool :=
  c = ' ' || c = '\t' || c = '\n' || c = '\r'

/-- Parse the body of a JSON string literal after the opening quote,
returning the decoded characters and the input after the closing quote. -/
def parseJsonStr : List Char → List Char → Option (List Char × List Char)
  | [], _ => none
  | c :: t, acc =>
    if c = dqChar then some (acc.reverse, t)
    else if c = '\\' then
      match t with
      | [] => none
      | e :: t2 =>
        if e = dqChar then parseJsonStr t2 (dqChar :: acc)
        else if e = '\\' then parseJsonStr t2 ('\\' :: acc)
        else if e = '/' then parseJsonStr t2 ('/' :: acc)
        else if e = 'n' then parseJsonStr t2 ('\n' :: acc)
        else if e = 't' then parseJsonStr t2 ('\t' :: acc)
        else if e = 'r' then parseJsonStr t2 ('\r' :: acc)
        else if e = 'b' then parseJsonStr t2 (Char.ofNat 8 :: acc)
        else if e = 'f' then parseJsonStr t2 (Char.ofNat 12 :: acc)
        else none
    else if c.toNat < 32 then none
    else parseJsonStr t (c :: acc)

/-- Parse an unsigned JSON integer (no leading zeros). -/
def parseJsonDigits (s : List Char) : Option (Int × List Char) :=
  let ds := s.takeWhile Char.isDigit
  let rest := s.drop ds.length
  match ds with
  | [] => none
  | [_] => some (Int.ofNat (ds.foldl (fun a c => a * 10 + (c.toNat - 48)) 0), rest)
  | d :: _ =>
    if d = '0' then none
    else some (Int.ofNat (ds.foldl (fun a c => a * 10 + (c.toNat - 48)) 0), rest)

/-- Parse a JSON number restricted to integer literals. -/
def parseJsonNum (s : List Char) : Option (Int × List Char) :=
  match s with
  | '-' :: t => (parseJsonDigits t).map (fun p => (-p.1, p.2))
  | _ => parseJsonDigits s

mutual

/-- Parse one JSON value; `fuel` strictly decreases on every recursive
call, and the top level supplies more fuel than the nesting depth of any
input can reach. -/
def parseJsonVal : Nat → List Char → Option (JSVal × List Char)
  | 0, _ => none
  | fuel + 1, s =>
    let s := s.dropWhile isJsonWs
    match s with
    | [] => none
    | c :: t =>
      if c = '{' then parseJsonFields fuel t true []
      else if c = '[' then parseJsonElems fuel t true []
      else if c = dqChar then (parseJsonStr t []).map (fun p => (.str p.1, p.2))
      else if c = 't' then
        if "rue".toList.isPrefixOf t then some (.bool true, t.drop 3) else none
      else if c = 'f' then
        if "alse".toList.isPrefixOf t then some (.bool false, t.drop 4) else none
      else if c = 'n' then
        if "ull".toList.isPrefixOf t then some (.null, t.drop 3) else none
      else (parseJsonNum s).map (fun p => (.num p.1, p.2))

/-- Parse the elements of a JSON array after the opening bracket;
`first` is true before any element has been read. -/
def parseJsonElems : Nat → List Char → Bool → List JSVal → Option (JSVal × List Char)
  | 0, _, _, _ => none
  | fuel + 1, s, first, acc =>
    let s1 := s.dropWhile isJsonWs
    match s1 with
    | [] => none
    | c :: t =>
      if c = ']' then
        if first then some (.arr [], t) else none
      else
        match parseJsonVal fuel s1 with
        | none => none
        | some (v, rest) =>
          let rest := rest.dropWhile isJsonWs
          match rest with
          | ']' :: r2 => some (.arr (acc ++ [v]), r2)
          | ',' :: r2 => parseJsonElems fuel r2 false (acc ++ [v])
          | _ => none

/-- Parse the fields of a JSON object after the opening brace. -/
def parseJsonFields : Nat → List Char → Bool → List (List Char × JSVal) →
    Option (JSVal × List Char)
  | 0, _, _, _ => none
  | fuel + 1, s, first, acc =>
    let s1 := s.dropWhile isJsonWs
    match s1 with
    | [] => none
    | c :: t =>
      if c = '}' then
        if first then some (.obj [], t) else none
      else if c = dqChar then
        match parseJsonStr t [] with
        | none => none
        | some (key, rest) =>
          let rest := rest.dropWhile isJsonWs
          match rest with
          | ':' :: r2 =>
            match parseJsonVal fuel r2 with
            | none => none
            | some (v, r3) =>
              let r3 := r3.dropWhile isJsonWs
              match r3 with
              | '}' :: r4 => some (.obj (acc ++ [(key, v)]), r4)
              | ',' :: r4 => parseJsonFields fuel r4 false (acc ++ [(key, v)])
              | _ => none
          | _ => none
      else none

end

/-- Model of `JSON.parse`: decode one value and require that only
whitespace follows it; on any failure the host function throws, modelled
by `none`. -/
def jsonParse (s : List Char) : Option JSVal :=
  match parseJsonVal (2 * s.length + 2) s with
  | some (v, rest) => if rest.dropWhile isJsonWs = [] then some v else none
  | none => none

/-! ## Suggestion parser (`parseCompletionResponse`, `src/extension.ts`) -/

/-- A completion suggestion record (`CompletionSuggestion`).  Field values
are JavaScript values, exactly as produced by the permissive mapping. -/
structure Suggestion where
  text : JSVal
  kind : JSVal
  detail : JSVal
  documentation : JSVal
  insertText : JSVal
deriving Repr, Inhabited

/-- The permissive per-item mapping of the primary path.  Member access on
a `null` or `undefined` array element throws, which the enclosing `try`
turns into the fallback; this is modelled by the `Except` error. -/
def mapItem (item : JSVal) : Except Unit Suggestion := do
  let t ← jsGet item "text".toList
  let comp ← jsGet item "completion".toList
  let lab ← jsGet item "label".toList
  let k ← jsGet item "kind".toList
  let d ← jsGet item "detail".toList
  let desc ← jsGet item "description".toList
  let doc ← jsGet item "documentation".toList
  let docs ← jsGet item "docs".toList
  let ins ← jsGet item "insertText".toList
  pure {
    text := jsOr t (jsOr comp (jsOr lab (.str []))),
    kind := jsOr k (.str "text".toList),
    detail := jsOr d (jsOr desc (.str [])),
    documentation := jsOr doc (jsOr docs (.str [])),
    insertText := jsOr ins (jsOr t (jsOr comp (.str [])))
  }

/-- Map every decoded array element left to right, propagating a thrown
`TypeError`. -/
def mapItems : List JSVal → Except Unit (List Suggestion)
  | [] => .ok []
  | item :: rest =>
    match mapItem item, mapItems rest with
    | .ok s, .ok ss => .ok (s :: ss)
    | .error e, _ => .error e
    | .ok _, .error e => .error e

/-- Scan modelling the test of `/(\w+)\s*\(/` on a line: somewhere in the
line a word character is followed, after optional whitespace, by an
opening parenthesis.  The state records whether the character just before
the current position, skipping whitespace, was a word character. -/
def funcScan : List Char → Bool → Bool
  | [], _ => false
  | c :: t, afterWord =>
    if c = '(' && afterWord then true
    else funcScan t (if isWordChar c then true else if isJsWs c then afterWord else false)

/-- After a declaration keyword: `\s+(\w+)` demands at least one
whitespace character and then a word character. -/
def wsThenWord : List Char → Bool
  | [] => false
  | c :: t => if isJsWs c then (t.dropWhile isJsWs).headD ' ' |> isWordChar else false

/-- Scan modelling the test of `/(?:const|let|var)\s+(\w+)/`: one of the
keywords occurs (not necessarily at a word boundary) followed by
whitespace and a word character. -/
def varScan : List Char → Bool
  | [] => false
  | s@(_ :: t) =>
    (("const".toList.isPrefixOf s && wsThenWord (s.drop 5)) ||
     ("let".toList.isPrefixOf s && wsThenWord (s.drop 3)) ||
     ("var".toList.isPrefixOf s && wsThenWord (s.drop 3))) ||
    varScan t

/-- The fallback kind classification, in the order of the source:
function pattern, declaration pattern, `class `, arrow or the word
`function`, otherwise text. -/
def classifyLine (l : List Char) : List Char :=
  if funcScan l false then "function".toList
  else if varScan l then "variable".toList
  else if containsSub l "class ".toList then "class".toList
  else if containsSub l "=>".toList || containsSub l "function".toList then "function".toList
  else "text".toList

/-- The lines the fallback keeps: split on newlines, trim, drop empty
lines and comment lines, keep the first ten. -/
def fallbackLines (response : List Char) : List (List Char) :=
  ((((splitLines response).map jsTrim).filter
    (fun l => l ≠ [] && !("#".toList.isPrefixOf l) && !("//".toList.isPrefixOf l))).take 10)

/-- Build one fallback suggestion from a kept line. -/
def mkFallbackSuggestion (l : List Char) : Suggestion :=
  { text := .str l, kind := .str (classifyLine l), detail := .str "AI suggestion".toList,
    documentation := .str [], insertText := .str l }

/-- The heuristic line-based fallback of `parseCompletionResponse`. -/
def parseFallback (response : List Char) : List Suggestion :=
  (fallbackLines response).map mkFallbackSuggestion

/-- Leftmost occurrence of three consecutive backticks; returns the text
after them. -/
def findTriple : List Char → Option (List Char)
  | [] => none
  | s@(_ :: t) =>
    if [btChar, btChar, btChar].isPrefixOf s then some (s.drop 3)
    else findTriple t

/-- Model of `replace(/```[\s\S]*?```/g, "")`: repeatedly delete the
leftmost lazily-closed fenced span.  When an opening fence has no closing
fence anywhere after it, no further match exists in the whole remainder
(any later match would need two later triple-backtick runs), so the scan
stops.  Each step consumes at least one character, so fuel equal to the
length suffices. -/
def stripFencedBlocks : Nat → List Char → List Char
  | 0, s => s
  | _ + 1, [] => []
  | fuel + 1, s@(c :: t) =>
    if [btChar, btChar, btChar].isPrefixOf s then
      match findTriple (s.drop 3) with
      | some rest => stripFencedBlocks fuel rest
      | none => s
    else c :: stripFencedBlocks fuel t

/-- Model of `replace(/\s*```$/, "")`: when the string ends with three
backticks, remove them and the run of whitespace before them; otherwise
the anchored pattern has no match and the string is unchanged. -/
def stripJsonTail (a : List Char) : List Char :=
  if [btChar, btChar, btChar] <:+ a then
    dropRightWhile isJsWs (a.take (a.length - 3))
  else a

/-- The fence-stripping preprocessing of the primary path applied to the
trimmed reply, as in the source: a reply opening with a json-labelled
fence has the first `/```json\s*/` match and a final `/\s*```$/` match
removed; a reply opening with a bare fence has every lazily-matched
fenced span deleted wholesale. -/
def cleanResponse (clean0 : List Char) : List Char :=
  if ([btChar, btChar, btChar] ++ "json".toList).isPrefixOf clean0 then
    stripJsonTail ((clean0.drop 7).dropWhile isJsWs)
  else if [btChar, btChar, btChar].isPrefixOf clean0 then
    stripFencedBlocks (clean0.length + 1) clean0
  else clean0

/-- Model of `parseCompletionResponse` (`src/extension.ts`): trim, strip
fences, decode with `JSON.parse`; on a decoded array run the permissive
mapping; when decoding or mapping throws, run the heuristic fallback on
the original reply; when a decoded value is not an array, fall out of the
`try` and return the empty list. -/
def parseCompletionResponse (response : List Char) : List Suggestion :=
  let clean := cleanResponse (jsTrim response)
  match jsonParse clean with
  | some (.arr items) =>
    match mapItems items with
    | .ok suggs => suggs
    | .error _ => parseFallback response
  | some _ => []
  | none => parseFallback response

/-! ## Backend request layer (`BackendService`, `src/extension.ts`)

The transport (the host `fetch` plus body decoding) is an explicit oracle
mapping a request to an outcome; each model function also returns the list
of transport calls it performed, so that network-call counts are part of
the statements. -/

/-- The two backend endpoints. -/
inductive Endpoint where
  | chat
  | completion
deriving Repr, DecidableEq

/-- The request body: `queryChat` sends `{message}`, `queryCompletion`
sends `{message, type: "completion", timeout: 5000}`. -/
structure Payload where
  message : List Char
  completionType : Bool
  timeout : Option Nat
deriving Repr, DecidableEq

/-- Body of a chat request. -/
def chatPayload (message : List Char) : Payload :=
  { message := message, completionType := false, timeout := none }

/-- Body of a completion request. -/
def completionPayload (prompt : List Char) : Payload :=
  { message := prompt, completionType := true, timeout := some 5000 }

/-- Outcome of one transport call: an HTTP response with its status and
status text and, when the status is a success, the `response` field of the
decoded body; or a transport-level failure carrying its message. -/
inductive TransportOutcome where
  | http (status : Nat) (statusText : List Char) (responseField : List Char)
  | networkFailure (message : List Char)
deriving Repr, DecidableEq

/-- `response.ok`: status in the 2xx range. -/
def TransportOutcome.isOk : TransportOutcome → Bool
  | .http status _ _ => 200 ≤ status && status < 300
  | .networkFailure _ => false

/-- A transport oracle. -/
def Transport := Endpoint → Payload → TransportOutcome

/-- Errors raised by `BackendService.query`: the authentication gate
throws before any network activity; everything thrown inside the `try`
is re-thrown wrapped in a `Backend error:` message. -/
inductive BackendError where
  | authRequired
  | wrappedAuthFailed
  | wrappedHttp (status : Nat) (statusText : List Char)
  | wrappedNetwork (message : List Char)
deriving Repr, DecidableEq

/-- The user-visible message of a `BackendService` error, matching the
strings built in the source. -/
def BackendError.message : BackendError → List Char
  | .authRequired => "Authentication required. Please log in first.".toList
  | .wrappedAuthFailed =>
    "Backend error: Authentication failed. Please log in again.".toList
  | .wrappedHttp status statusText =>
    "Backend error: HTTP ".toList ++ (Nat.repr status).toList ++ ": ".toList ++ statusText
  | .wrappedNetwork message => "Backend error: ".toList ++ message

/-- JavaScript truthiness of the stored token (`!!this.authToken`): absent
or empty tokens are not authenticated. -/
def tokenTruthy : Option (List Char) → Bool
  | none => false
  | some s => s ≠ []

/-- Model of `BackendService.query`: refuse without a truthy token before
any transport call; otherwise perform exactly one transport call and
translate its outcome (401/403 to an authentication failure, other
non-success statuses to an HTTP failure, transport rejections to a
network failure), every failure wrapped by the outer `catch`. -/
def query (authToken : Option (List Char)) (transport : Transport)
    (endpoint : Endpoint) (payload : Payload) :
    Except BackendError (List Char) × List (Endpoint × Payload) :=
  if tokenTruthy authToken = false then (.error .authRequired, [])
  else
    match transport endpoint payload with
    | .http status statusText responseField =>
      if 200 ≤ status && status < 300 then (.ok responseField, [(endpoint, payload)])
      else if status = 401 || status = 403 then
        (.error .wrappedAuthFailed, [(endpoint, payload)])
      else (.error (.wrappedHttp status statusText), [(endpoint, payload)])
    | .networkFailure message =>
      (.error (.wrappedNetwork message), [(endpoint, payload)])

/-- Model of `BackendService.queryChat`: one call to the chat endpoint,
errors propagate. -/
def queryChat (authToken : Option (List Char)) (transport : Transport)
    (message : List Char) : Except BackendError (List Char) × List (Endpoint × Payload) :=
  query authToken transport .chat (chatPayload message)

/-- Model of `BackendService.queryCompletion`: try the completion
endpoint; on any error fall back to exactly one chat-endpoint call with
the same prompt; if that also errors, return the empty string instead of
throwing. -/
def queryCompletion (authToken : Option (List Char)) (transport : Transport)
    (prompt : List Char) : Except BackendError (List Char) × List (Endpoint × Payload) :=
  match query authToken transport .completion (completionPayload prompt) with
  | (.ok response, log) => (.ok response, log)
  | (.error _, log) =>
    match query authToken transport .chat (chatPayload prompt) with
    | (.ok response, log2) => (.ok response, log ++ log2)
    | (.error _, log2) => (.ok [], log ++ log2)

/-! ## Sidebar session state (`SidebarProvider`, `src/SidebarProvider.ts`) -/

/-- The stored user identity (`_userInfo` after a successful login). -/
structure UserInfoR where
  id : Option Int
  email : Option (List Char)
  conversationId : Option (List Char)
deriving Repr, DecidableEq

/-- The session fields of the sidebar provider. -/
structure SidebarState where
  authToken : Option (List Char)
  userInfo : Option UserInfoR
deriving Repr, DecidableEq

/-- The startup state: both fields null. -/
def initialSidebarState : SidebarState :=
  { authToken := none, userInfo := none }

/-- `isAuthenticated()`. -/
def isAuthSt (st : SidebarState) : Bool :=
  tokenTruthy st.authToken

/-- `updateAuthToken(token)`: stores the token and touches nothing else. -/
def updateAuthToken (st : SidebarState) (token : List Char) : SidebarState :=
  { st with authToken := some token }

/-- `clearAuth()`. -/
def clearAuth (_st : SidebarState) : SidebarState :=
  { authToken := none, userInfo := none }

/-- Messages posted to the webview panel. -/
inductive PanelMsg where
  | loginSuccess
  | loginError (message : List Char)
  | showLogin
  | assistant (text : List Char)
  | errorMsg (text : List Char)
deriving Repr, DecidableEq

/-- The decoded body of `/api/login`, with the optional fields of the
`LoginResponse` interface. -/
structure LoginResponse where
  success : Bool
  message : Option (List Char)
  userId : Option Int
  email : Option (List Char)
  conversationId : Option (List Char)
  token : Option (List Char)
  accessToken : Option (List Char)
deriving Repr, DecidableEq

/-- Outcome of the login `fetch`. -/
inductive LoginOutcome where
  | ok (r : LoginResponse)
  | httpNotOk (status : Nat)
  | networkFailure
deriving Repr, DecidableEq

/-- JavaScript `a || b` on an optional string field: absent and empty
strings are falsy. -/
def jsOrStr (a : Option (List Char)) (b : List Char) : List Char :=
  match a with
  | some s => if s ≠ [] then s else b
  | none => b

/-- The template `user_${result.user_id}`. -/
def derivedToken (userId : Option Int) : List Char :=
  "user_".toList ++ (match userId with
    | some n => (Int.repr n).toList
    | none => "undefined".toList)

/-- Model of `handleLogin`: empty credentials and transport or HTTP
failures leave the state unchanged and post a login error; a response
with `success` stores the token (`token || access_token || derived`) and
the user info and posts the success message; a response without `success`
leaves the state unchanged. -/
def handleLogin (st : SidebarState) (username password : List Char)
    (outcome : LoginOutcome) : SidebarState × List PanelMsg :=
  if username = [] || password = [] then
    (st, [.loginError "Please enter both username and password".toList])
  else
    match outcome with
    | .ok r =>
      if r.success then
        ({ authToken := some (jsOrStr r.token (jsOrStr r.accessToken (derivedToken r.userId))),
           userInfo := some { id := r.userId, email := r.email,
                              conversationId := r.conversationId } },
         [.loginSuccess])
      else (st, [.loginError (jsOrStr r.message "Invalid credentials".toList)])
    | .httpNotOk _ =>
      (st, [.loginError "Connection failed. Please check if auth server is running on port 9090.".toList])
    | .networkFailure =>
      (st, [.loginError "Connection failed. Please check if auth server is running on port 9090.".toList])

/-- Model of the webview `logout` message: clear the session and show the
login panel. -/
def handleLogout (st : SidebarState) : SidebarState × List PanelMsg :=
  (clearAuth st, [.showLogin])

/-- Model of the webview `send` message combined with the extension-host
message handler: while logged out, post the authentication-required error
and the login prompt without invoking the handler; otherwise copy the
sidebar token into the backend service, run `queryChat`, and post either
the assistant reply or the error message.  The session fields are never
written on this path. -/
def handleSend (st : SidebarState) (transport : Transport) (text : List Char) :
    SidebarState × List PanelMsg × List (Endpoint × Payload) :=
  if isAuthSt st = false then
    (st, [.errorMsg "Authentication required. Please login first.".toList, .showLogin], [])
  else
    match queryChat st.authToken transport text with
    | (.ok response, log) => (st, [.assistant response], log)
    | (.error e, log) => (st, [.errorMsg e.message], log)

/-- Session invariant claimed by the specification: user info is present
exactly when the auth token is present. -/
def sessionInvariant (st : SidebarState) : Bool :=
  st.userInfo.isSome = st.authToken.isSome

/-! ## Editor-facing protected operations (`src/extension.ts`)

The completion and hover providers guard on `isAuthenticated()` before
building a prompt and reaching the request layer; the editor-surface
details (configuration flags, word extraction) other than the enablement
flag are elided, the prompt is taken as given. -/

/-- Model of `provideCompletions`: disabled or unauthenticated providers
return no items without any transport call; otherwise the reply of
`queryCompletion` is parsed and truncated to `maxSuggestions`. -/
def provideCompletionsOp (enabled : Bool) (st : SidebarState) (transport : Transport)
    (prompt : List Char) (maxSuggestions : Nat) :
    List Suggestion × List (Endpoint × Payload) :=
  if enabled = false then ([], [])
  else if isAuthSt st = false then ([], [])
  else
    match queryCompletion st.authToken transport prompt with
    | (.ok response, log) => ((parseCompletionResponse response).take maxSuggestions, log)
    | (.error _, log) => ([], log)

/-- Model of `provideHover`: unauthenticated providers return no hover
without any transport call; otherwise the completion path is queried and
a hover is produced only from a reply with non-blank text.  Errors are
swallowed by the provider. -/
def provideHoverOp (st : SidebarState) (transport : Transport) (prompt : List Char) :
    Option (List Char) × List (Endpoint × Payload) :=
  if isAuthSt st = false then (none, [])
  else
    match queryCompletion st.authToken transport prompt with
    | (.ok response, log) => (if jsTrim response ≠ [] then some response else none, log)
    | (.error _, log) => (none, log)

/-! ## Webview formatting (`formatResponse` and `escapeHtml`,
`src/SidebarProvider.ts`)

`formatResponse` first extracts fenced code regions with
`/```(\w*)[\s]*([\s\S]*?)```/g` run against the original text, replacing
the first occurrence of each matched string in the working copy with a
`__CODE_BLOCK_i__` placeholder; it then extracts inline spans with
`/`([^`\n]+)`/g` run against the working copy as it mutates, replacing
the first occurrence of each match with an `__INLINE_CODE_i__`
placeholder.  Restoration walks the recorded tokens in order and replaces
the first occurrence of each placeholder. -/

/-- The block placeholder `__CODE_BLOCK_i__`. -/
def phBlock (i : Nat) : List Char :=
  "__CODE_BLOCK_".toList ++ (Nat.repr i).toList ++ "__".toList

/-- The inline placeholder `__INLINE_CODE_i__`. -/
def phInline (i : Nat) : List Char :=
  "__INLINE_CODE_".toList ++ (Nat.repr i).toList ++ "__".toList

/-- A recorded fenced code region.  The `id` built from `Date.now()` is
host-clock dependent and bound only by the action buttons, so it is not
modelled. -/
structure CodeBlockTok where
  placeholder : List Char
  language : List Char
  code : List Char
deriving Repr, DecidableEq

/-- A recorded inline code span. -/
structure InlineCodeTok where
  placeholder : List Char
  code : List Char
deriving Repr, DecidableEq

/-- Leftmost occurrence of three consecutive backticks, returning the text
before and the text after them. -/
def findTripleSplit : List Char → Option (List Char × List Char)
  | [] => none
  | s@(c :: t) =>
    if [btChar, btChar, btChar].isPrefixOf s then some ([], s.drop 3)
    else (findTripleSplit t).map (fun p => (c :: p.1, p.2))

/-- All matches of `/```(\w*)[\s]*([\s\S]*?)```/g` on a fixed text, in
order, each as (matched string, language word, second group).  After
`\w*` and `[\s]*` are taken greedily the lazy group ends at the next
triple backtick; when none exists no match can start at or after the
failed opening, so the scan ends.  Fuel bounds the length of the text. -/
def scanCodeBlocks : Nat → List Char → List (List Char × List Char × List Char)
  | 0, _ => []
  | _ + 1, [] => []
  | fuel + 1, s@(_ :: t) =>
    if [btChar, btChar, btChar].isPrefixOf s then
      let s1 := s.drop 3
      let lang := s1.takeWhile isWordChar
      let s2 := s1.dropWhile isWordChar
      let ws := s2.takeWhile isJsWs
      let s3 := s2.dropWhile isJsWs
      match findTripleSplit s3 with
      | some (g2, rest) =>
        ([btChar, btChar, btChar] ++ lang ++ ws ++ g2 ++ [btChar, btChar, btChar],
         lang, g2) :: scanCodeBlocks fuel rest
      | none => []
    else scanCodeBlocks fuel t

/-- The code-block phase of `formatResponse`: record one token per match
(language defaulting to `text`, body trimmed) and replace each matched
string, in match order, at its first occurrence in the working copy. -/
def blockPhase (text : List Char) : List Char × List CodeBlockTok :=
  let ms := (scanCodeBlocks (text.length + 1) text).enum
  (ms.foldl (fun f m => replaceFirst f m.2.1 (phBlock m.1)) text,
   ms.map (fun m =>
     { placeholder := phBlock m.1,
       language := if m.2.2.1 = [] then "text".toList else m.2.2.1,
       code := jsTrim m.2.2.2 }))

/-- Attempt the inline pattern at a backtick just consumed: `[^`\n]+`
taken greedily must be non-empty and followed by a closing backtick. -/
def tryInlineContent (t : List Char) : Option (List Char × List Char) :=
  let content := t.takeWhile (fun c => !(c = btChar) && !(c = '\n'))
  if content = [] then none
  else
    match t.drop content.length with
    | c :: post => if c = btChar then some (content, post) else none
    | [] => none

/-- Leftmost match of the inline pattern: returns the skipped text, the
span content and the text after the closing backtick. -/
def scanInline : List Char → Option (List Char × List Char × List Char)
  | [] => none
  | c :: t =>
    if c = btChar then
      match tryInlineContent t with
      | some (content, post) => some ([], content, post)
      | none => (scanInline t).map (fun p => (c :: p.1, p.2.1, p.2.2))
    else (scanInline t).map (fun p => (c :: p.1, p.2.1, p.2.2))

/-- Model of `inlineCodeRegex.exec(formatted)` with the regex holding
`lastIndex = i`: scan the text from position `i`; the returned first
component is the whole text before the match. -/
def execInline (f : List Char) (i : Nat) : Option (List Char × List Char × List Char) :=
  (scanInline (f.drop i)).map (fun p => (f.take i ++ p.1, p.2.1, p.2.2))

/-- The inline-span loop of `formatResponse`: repeatedly `exec` against
the working copy as it mutates, record a token, replace the first
occurrence of the matched string with the placeholder, and resume from
the old match end.  Each iteration removes two backticks from the text,
so fuel equal to the initial length suffices. -/
def inlineLoopF : Nat → List Char → Nat → Nat → List InlineCodeTok →
    List Char × List InlineCodeTok
  | 0, f, _, _, acc => (f, acc)
  | fuel + 1, f, lastIndex, idx, acc =>
    match execInline f lastIndex with
    | none => (f, acc)
    | some (pre, content, _) =>
      let ph := phInline idx
      let full := btChar :: (content ++ [btChar])
      inlineLoopF fuel (replaceFirst f full ph) (pre.length + full.length) (idx + 1)
        (acc ++ [{ placeholder := ph, code := content }])

/-- The inline-span phase of `formatResponse`. -/
def segmentInline (s : List Char) : List Char × List InlineCodeTok :=
  inlineLoopF (s.length + 1) s 0 0 []

/-- The segmentation performed by `formatResponse`: fenced regions first,
inline spans second, returning the placeholder-bearing text and the two
token lists. -/
def segmentResponse (text : List Char) :
    List Char × List CodeBlockTok × List InlineCodeTok :=
  let b := blockPhase text
  let i := segmentInline b.1
  (i.1, b.2, i.2)

/-- Placeholder restoration with the markup transformer replaced by the
identity and each placeholder replaced by the recorded content itself:
inline tokens first, then block tokens, each via first-occurrence
replacement, exactly as the two `forEach` loops of the source. -/
def restoreIdentity (s : List Char) (blocks : List CodeBlockTok)
    (inlines : List InlineCodeTok) : List Char :=
  blocks.foldl (fun f tok => replaceFirst f tok.placeholder tok.code)
    (inlines.foldl (fun f tok => replaceFirst f tok.placeholder tok.code) s)

/-- The no-break space U+00A0, which text-node serialisation escapes. -/
def nbspChar : Char := Char.ofNat 160

/-- Model of the webview `escapeHtml`: the function assigns
`div.textContent` and reads `div.innerHTML`, whose fragment-serialisation
algorithm escapes exactly four characters in a text node — the ampersand,
the no-break space U+00A0, and the two angle brackets — and leaves every
other character, including both quote characters, unchanged. -/
def escChar (c : Char) : List Char :=
  if c = '&' then "&amp;".toList
  else if c = '<' then "&lt;".toList
  else if c = '>' then "&gt;".toList
  else if c = nbspChar then "&nbsp;".toList
  else [c]

/-- Model of `escapeHtml` on a whole string. -/
def escapeHtml (s : List Char) : List Char :=
  (s.map escChar).flatten

/-- Decoder for the four entities `escapeHtml` can emit; every other
character is passed through. -/
def unescapeHtml : List Char → List Char
  | [] => []
  | '&' :: 'a' :: 'm' :: 'p' :: ';' :: t => '&' :: unescapeHtml t
  | '&' :: 'l' :: 't' :: ';' :: t => '<' :: unescapeHtml t
  | '&' :: 'g' :: 't' :: ';' :: t => '>' :: unescapeHtml t
  | '&' :: 'n' :: 'b' :: 's' :: 'p' :: ';' :: t => nbspChar :: unescapeHtml t
  | c :: t => c :: unescapeHtml t

/-- Scanner deciding that every ampersand in a string opens one of the
four entities `&amp;`, `&lt;`, `&gt;`, `&nbsp;` (the sense in which
ampersands are neutralised). -/
def ampNeutral : List Char → Bool
  | [] => true
  | '&' :: 'a' :: 'm' :: 'p' :: ';' :: t => ampNeutral t
  | '&' :: 'l' :: 't' :: ';' :: t => ampNeutral t
  | '&' :: 'g' :: 't' :: ';' :: t => ampNeutral t
  | '&' :: 'n' :: 'b' :: 's' :: 'p' :: ';' :: t => ampNeutral t
  | '&' :: _ => false
  | _ :: t => ampNeutral t

/-! ## Claim C2: the escape applied during restoration -/

theorem escapeHtml_nil : escapeHtml [] = [] := rfl

theorem escapeHtml_cons (c : Char) (s : List Char) :
    escapeHtml (c :: s) = escChar c ++ escapeHtml s := rfl

set_option maxHeartbeats 1000000 in
theorem ampNeutral_cons_ne {c : Char} (t : List Char) (h : c ≠ '&') :
    ampNeutral (c :: t) = ampNeutral t := by
  rw [ampNeutral.eq_def]
  split <;> simp_all

set_option maxHeartbeats 1000000 in
theorem unescapeHtml_cons_ne {c : Char} (t : List Char) (h : c ≠ '&') :
    unescapeHtml (c :: t) = c :: unescapeHtml t := by
  rw [unescapeHtml.eq_def]
  split <;> simp_all

theorem escChar_no_angle (c : Char) :
    ((escChar c).all fun d => !(d = '<') && !(d = '>')) = true := by
  unfold escChar
  split_ifs with h1 h2 h3 h4 <;> simp_all

/-- C2 (amended): for every input string, the escape used during
placeholder restoration neutralises the angle brackets and the ampersand
(the original claim minus its quote clause): its output contains no `<`
and no `>` at all, every `&` in the output opens one of the entities the
serialisation emits (`&amp;`, `&lt;`, `&gt;`, `&nbsp;`), and decoding
those entities recovers the input exactly, so no code content is ever
raw-inserted as markup.  Quote characters pass through unchanged, see the
counterexample. -/
theorem C2_escapeHtml_neutralises_markup (s : List Char) :
    ((escapeHtml s).all fun c => !(c = '<') && !(c = '>')) = true ∧
    ampNeutral (escapeHtml s) = true ∧
    unescapeHtml (escapeHtml s) = s := by
  induction s with
  | nil => exact ⟨rfl, rfl, rfl⟩
  | cons c t ih =>
    refine ⟨?_, ?_, ?_⟩
    · rw [escapeHtml_cons, List.all_append, ih.1, escChar_no_angle]
      rfl
    · rw [escapeHtml_cons]
      unfold escChar
      split_ifs with h1 h2 h3 h4
      · subst h1; exact ih.2.1
      · subst h2; exact ih.2.1
      · subst h3; exact ih.2.1
      · subst h4; exact ih.2.1
      · rw [List.singleton_append, ampNeutral_cons_ne _ h1]
        exact ih.2.1
    · rw [escapeHtml_cons]
      unfold escChar
      split_ifs with h1 h2 h3 h4
      · subst h1
        show '&' :: unescapeHtml (escapeHtml t) = '&' :: t
        rw [ih.2.2]
      · subst h2
        show '<' :: unescapeHtml (escapeHtml t) = '<' :: t
        rw [ih.2.2]
      · subst h3
        show '>' :: unescapeHtml (escapeHtml t) = '>' :: t
        rw [ih.2.2]
      · subst h4
        show nbspChar :: unescapeHtml (escapeHtml t) = nbspChar :: t
        rw [ih.2.2]
      · rw [List.singleton_append, unescapeHtml_cons_ne _ h1, ih.2.2]

/-- C2 counterexample: the double quote and the single quote are returned
unchanged by the escape, so the output does contain these characters
unescaped, refuting the claim as stated. -/
theorem C2_counterexample_quotes_unescaped :
    escapeHtml [dqChar] = [dqChar] ∧ escapeHtml [sqChar] = [sqChar] ∧
    (escapeHtml [dqChar]).contains dqChar = true := by
  refine ⟨rfl, rfl, rfl⟩

/-! ## Claim C9: the heuristic fallback -/

theorem dropWhile_idem (p : Char → Bool) (l : List Char) :
    (l.dropWhile p).dropWhile p = l.dropWhile p := by
  induction l with
  | nil => rfl
  | cons c t ih =>
    by_cases hp : p c = true
    · simp [List.dropWhile_cons, hp, ih]
    · simp [List.dropWhile_cons, hp]

theorem dropRightWhile_pre (p : Char → Bool) (l : List Char) :
    dropRightWhile p l <+: l := by
  unfold dropRightWhile
  have h : l.reverse.dropWhile p <:+ l.reverse := List.dropWhile_suffix p
  rw [← List.reverse_prefix] at h
  simpa using h

theorem dropWhile_dropRightWhile (p : Char → Bool) (l : List Char)
    (h : l.dropWhile p = l) : (dropRightWhile p l).dropWhile p = dropRightWhile p l := by
  rcases hp : dropRightWhile p l with _ | ⟨c, t⟩
  · rfl
  · have hpre : c :: t <+: l := hp ▸ dropRightWhile_pre p l
    rcases hpre with ⟨r, hr⟩
    have hczz : p c = false := by
      rcases l with _ | ⟨d, u⟩
      · simp at hr
      · have hd : d = c := by
          have := hr
          simp [List.cons_append] at this
          exact this.1.symm
        subst hd
        by_cases hpc : p d = true
        · rw [List.dropWhile_cons, if_pos hpc] at h
          have hlen := congrArg List.length h
          have hle : (u.dropWhile p).length ≤ u.length :=
            (List.dropWhile_suffix p).length_le
          simp only [List.length_cons] at hlen
          omega
        · simpa using hpc
    simp [List.dropWhile_cons, hczz]

theorem dropRightWhile_idem (p : Char → Bool) (l : List Char) :
    dropRightWhile p (dropRightWhile p l) = dropRightWhile p l := by
  unfold dropRightWhile
  rw [List.reverse_reverse, dropWhile_idem]

theorem jsTrim_idem (s : List Char) : jsTrim (jsTrim s) = jsTrim s := by
  unfold jsTrim
  rw [dropWhile_dropRightWhile isJsWs (s.dropWhile isJsWs) (dropWhile_idem _ s),
    dropRightWhile_idem]

/-- The per-suggestion property the fallback guarantees: the text is a
kept line (non-blank, not a comment line, already trimmed), the kind is
its classification, the detail is the fixed literal, the documentation is
empty and the inserted text equals the line. -/
def fallbackGood (s : Suggestion) : Bool :=
  match s.text with
  | .str l =>
    s.kind.eqStr (classifyLine l) && s.detail.eqStr "AI suggestion".toList &&
    s.documentation.eqStr [] && s.insertText.eqStr l &&
    (!(l = []) && !(("#".toList).isPrefixOf l) && !(("//".toList).isPrefixOf l)) &&
    jsTrim l = l
  | _ => false

/-- The three-line example of the claim. -/
def c9Example : List Char :=
  "const x = 1\n# comment\nfunction bar() \x7b".toList

/-- C9 (confirmed): every fallback result has at most ten suggestions;
every suggestion carries a kept (trimmed, non-blank, non-comment) line as
text and insert text, the fixed detail literal, an empty documentation
and the kind classified from the line; the classification follows the
documented pattern order (identifier before an opening parenthesis, then
declaration keyword, then `class `, then arrow or the word `function`,
otherwise text); and the three-line example yields exactly the two
suggestions with kinds `variable` and `function`. -/
theorem C9_fallback_contract (response l : List Char) :
    (parseFallback response).length ≤ 10 ∧
    ((parseFallback response).all fallbackGood) = true ∧
    (funcScan l false = true → classifyLine l = "function".toList) ∧
    (funcScan l false = false → varScan l = true → classifyLine l = "variable".toList) ∧
    (funcScan l false = false → varScan l = false → containsSub l "class ".toList = true →
      classifyLine l = "class".toList) ∧
    (funcScan l false = false → varScan l = false → containsSub l "class ".toList = false →
      (containsSub l "=>".toList || containsSub l "function".toList) = true →
      classifyLine l = "function".toList) ∧
    (funcScan l false = false → varScan l = false → containsSub l "class ".toList = false →
      (containsSub l "=>".toList || containsSub l "function".toList) = false →
      classifyLine l = "text".toList) ∧
    parseFallback c9Example =
      [mkFallbackSuggestion "const x = 1".toList,
       mkFallbackSuggestion "function bar() \x7b".toList] ∧
    classifyLine "const x = 1".toList = "variable".toList ∧
    classifyLine "function bar() \x7b".toList = "function".toList := by
  refine ⟨?_, ?_, ?_, ?_, ?_, ?_, ?_, by rfl, by rfl, by rfl⟩
  · unfold parseFallback fallbackLines
    rw [List.length_map, List.length_take]
    exact min_le_left _ _
  · unfold parseFallback
    refine List.all_eq_true.2 ?_
    intro s hs
    rcases List.mem_map.1 hs with ⟨x, hx, rfl⟩
    have hmem : x ∈ ((splitLines response).map jsTrim).filter
        (fun l => l ≠ [] && !(("#".toList).isPrefixOf l) && !(("//".toList).isPrefixOf l)) :=
      List.take_subset _ _ hx
    have hpred := (List.mem_filter.1 hmem).2
    have htrim : jsTrim x = x := by
      rcases List.mem_map.1 (List.mem_filter.1 hmem).1 with ⟨y, _, hy⟩
      rw [← hy, jsTrim_idem]
    simp only [Bool.and_eq_true, Bool.not_eq_eq_eq_not, Bool.not_true, ne_eq,
      decide_eq_true_eq] at hpred
    simp [mkFallbackSuggestion, fallbackGood, JSVal.eqStr, htrim]
    exact ⟨⟨hpred.1.1, hpred.1.2⟩, hpred.2⟩
  · intro h1
    unfold classifyLine
    rw [h1]
    simp
  · intro h1 h2
    unfold classifyLine
    rw [h1, h2]
    simp
  · intro h1 h2 h3
    unfold classifyLine
    rw [h1, h2, h3]
    simp
  · intro h1 h2 h3 h4
    unfold classifyLine
    rw [h1, h2, h3, h4]
    simp
  · intro h1 h2 h3 h4
    unfold classifyLine
    rw [h1, h2, h3, h4]
    simp

/-- C9 witness: the claim theorem applied at the concrete example and at
a concrete line, discharging the pattern hypotheses there. -/
theorem C9_fallback_contract_witness :
    classifyLine "const x = 1".toList = "variable".toList ∧
    classifyLine "foo(".toList = "function".toList :=
  ⟨(C9_fallback_contract [] "const x = 1".toList).2.2.2.1 (by rfl) (by rfl),
   (C9_fallback_contract [] "foo(".toList).2.2.1 (by rfl)⟩

/-! ## Claim C10: empty inline spans are never extracted -/

theorem tryInlineContent_some {t content post : List Char}
    (h : tryInlineContent t = some (content, post)) : content ≠ [] := by
  simp only [tryInlineContent] at h
  split at h
  · exact absurd h (by simp)
  · split at h
    · split at h
      · cases h
        assumption
      · exact absurd h (by simp)
    · exact absurd h (by simp)

theorem scanInline_code_ne :
    ∀ {s sk c p : List Char}, scanInline s = some (sk, c, p) → c ≠ [] := by
  intro s
  induction s with
  | nil => intro sk c p h; exact absurd h (by simp [scanInline])
  | cons d t ih =>
    intro sk c p h
    unfold scanInline at h
    split at h
    · rcases htry : tryInlineContent t with _ | ⟨cont, post2⟩
      · rw [htry] at h
        rcases hscan : scanInline t with _ | ⟨sk2, c2, p2⟩
        · rw [hscan] at h; exact absurd h (by simp)
        · rw [hscan] at h
          simp only [Option.map_some'] at h
          cases h
          exact ih hscan
      · rw [htry] at h
        cases h
        exact tryInlineContent_some htry
    · rcases hscan : scanInline t with _ | ⟨sk2, c2, p2⟩
      · rw [hscan] at h; exact absurd h (by simp)
      · rw [hscan] at h
        simp only [Option.map_some'] at h
        cases h
        exact ih hscan

theorem execInline_code_ne {f : List Char} {i : Nat} {pre c post : List Char}
    (h : execInline f i = some (pre, c, post)) : c ≠ [] := by
  unfold execInline at h
  rcases hscan : scanInline (f.drop i) with _ | ⟨sk2, c2, p2⟩
  · rw [hscan] at h; exact absurd h (by simp)
  · rw [hscan] at h
    simp only [Option.map_some'] at h
    cases h
    exact scanInline_code_ne hscan

theorem inlineLoopF_code_ne :
    ∀ (fuel : Nat) (f : List Char) (li idx : Nat) (acc : List InlineCodeTok),
      (∀ tok ∈ acc, tok.code ≠ []) →
      ∀ tok ∈ (inlineLoopF fuel f li idx acc).2, tok.code ≠ [] := by
  intro fuel
  induction fuel with
  | zero => intro f li idx acc hacc tok htok; exact hacc tok htok
  | succ n ih =>
    intro f li idx acc hacc tok htok
    unfold inlineLoopF at htok
    rcases hexec : execInline f li with _ | ⟨pre, content, rest⟩
    · rw [hexec] at htok
      exact hacc tok htok
    · rw [hexec] at htok
      refine ih _ _ _ _ ?_ tok htok
      intro tok2 htok2
      rcases List.mem_append.1 htok2 with hm | hm
      · exact hacc tok2 hm
      · have : tok2 = { placeholder := phInline idx, code := content } := by
          simpa using hm
        rw [this]
        exact execInline_code_ne hexec

/-- C10 (confirmed): for every input text, every inline token recorded by
the segmenter has non-empty content (the inline pattern demands at least
one character between the backticks), and on the concrete text with two
adjacent backticks the segmenter extracts nothing and leaves the text,
backticks included, unchanged. -/
theorem C10_empty_inline_span_never_extracted (text : List Char) :
    ((segmentResponse text).2.2.all fun tok => !(tok.code.isEmpty)) = true ∧
    segmentResponse ("a".toList ++ [btChar, btChar] ++ "b".toList) =
      ("a".toList ++ [btChar, btChar] ++ "b".toList, [], []) := by
  constructor
  · refine List.all_eq_true.2 ?_
    intro tok htok
    have hne : tok.code ≠ [] := by
      have key := inlineLoopF_code_ne ((blockPhase text).1.length + 1)
        (blockPhase text).1 0 0 [] (by simp)
      refine key tok ?_
      simpa [segmentResponse, segmentInline] using htok
    simpa using hne
  · rfl

/-! ## Claims C3 and C4: the suggestion parser paths -/

theorem dropWhile_eq_self_of_head {p : Char → Bool} {s : List Char}
    (h : ∀ c, s.head? = some c → p c = false) : s.dropWhile p = s := by
  cases s with
  | nil => rfl
  | cons c t => simp [List.dropWhile_cons, h c rfl]

theorem jsTrim_eq_self {s : List Char}
    (hh : ∀ c, s.head? = some c → isJsWs c = false)
    (hl : ∀ c, s.getLast? = some c → isJsWs c = false) : jsTrim s = s := by
  unfold jsTrim dropRightWhile
  rw [dropWhile_eq_self_of_head hh]
  rw [dropWhile_eq_self_of_head (fun c hc =>
    hl c (by rwa [List.getLast?_eq_head?_reverse]))]
  exact List.reverse_reverse s

theorem isPrefixOf_append_self (a b : List Char) : a.isPrefixOf (a ++ b) = true := by
  induction a with
  | nil => simp [List.isPrefixOf]
  | cons c t ih => simp [List.isPrefixOf, ih]

theorem mapItems_length : ∀ {items : List JSVal} {suggs : List Suggestion},
    mapItems items = .ok suggs → suggs.length = items.length := by
  intro items
  induction items with
  | nil =>
    intro suggs h
    cases h
    rfl
  | cons item rest ih =>
    intro suggs h
    unfold mapItems at h
    rcases hx : mapItem item with e | s
    · rw [hx] at h
      exact absurd h (by simp)
    · rw [hx] at h
      rcases hr : mapItems rest with e | ss
      · rw [hr] at h
        exact absurd h (by simp)
      · rw [hr] at h
        cases h
        simp [ih hr]

/-- C3 (amended): the suggestion parser surfaces no error: when the
structured decode succeeds with a value that is not an array, the result
is the empty suggestion list and the fallback is not consulted; the
heuristic fallback is run exactly when the decode throws (the reply is
not well-formed JSON after fence stripping). -/
theorem C3_nonarray_decode_yields_empty (s : List Char) (v : JSVal) :
    (jsonParse (cleanResponse (jsTrim s)) = some v → v.isArr = false →
      parseCompletionResponse s = []) ∧
    (jsonParse (cleanResponse (jsTrim s)) = none →
      parseCompletionResponse s = parseFallback s) := by
  constructor
  · intro hp harr
    simp only [parseCompletionResponse]
    rw [hp]
    cases v with
    | arr items => exact absurd harr (by simp [JSVal.isArr])
    | undefinedV => rfl
    | null => rfl
    | bool b => rfl
    | num n => rfl
    | str t => rfl
    | obj fields => rfl
  · intro hp
    simp only [parseCompletionResponse]
    rw [hp]

/-- C3 witness: the theorem applied at a numeric reply (well-formed JSON,
not an array: the parser returns no suggestions) and at a non-JSON reply
(the parser equals the fallback). -/
theorem C3_nonarray_decode_yields_empty_witness :
    parseCompletionResponse "5".toList = [] ∧
    parseCompletionResponse "not json".toList = parseFallback "not json".toList :=
  ⟨(C3_nonarray_decode_yields_empty "5".toList (.num 5)).1 (by rfl) (by rfl),
   (C3_nonarray_decode_yields_empty "not json".toList .null).2 (by rfl)⟩

/-- C3 counterexample: a reply that decodes to a single JSON object.  The
claim says the parser recovers by running the line-based fallback and
produces its suggestions from it; the code returns the empty list while
the fallback would have produced a suggestion. -/
theorem C3_counterexample_object_reply :
    parseCompletionResponse "\x7b\"a\": 1\x7d".toList = [] ∧
    jsonParse (cleanResponse (jsTrim "\x7b\"a\": 1\x7d".toList)) =
      some (.obj [("a".toList, .num 1)]) ∧
    parseFallback "\x7b\"a\": 1\x7d".toList ≠ [] := by
  refine ⟨rfl, rfl, ?_⟩
  intro h
  exact List.cons_ne_nil _ _ h

/-- The reply shape of the json-labelled primary path: a json-labelled
fence wrapping the inner text. -/
def jsonFenced (inner : List Char) : List Char :=
  ([btChar, btChar, btChar] ++ "json".toList) ++
    (('\n' :: inner) ++ ('\n' :: [btChar, btChar, btChar]))

/-- C4 (amended): a reply that is a json-labelled fence wrapping a
well-formed JSON array whose elements map without a thrown error has the
wrapper stripped and the inner array decoded, and the parser returns
exactly the mapped suggestions of the primary path, one per array
element, without invoking the heuristic fallback.  (A bare fence does not
behave this way: see the counterexample, whose fenced region is deleted
wholesale so that the fallback runs.) -/
theorem C4_json_fenced_array_primary_path (inner : List Char) (items : List JSVal)
    (suggs : List Suggestion)
    (hinner : jsonParse inner = some (.arr items))
    (hmap : mapItems items = .ok suggs)
    (hh : ∀ c, inner.head? = some c → isJsWs c = false)
    (hl : ∀ c, inner.getLast? = some c → isJsWs c = false) :
    parseCompletionResponse (jsonFenced inner) = suggs ∧ suggs.length = items.length := by
  have hne : inner ≠ [] := by
    intro h
    rw [h] at hinner
    exact absurd hinner (by simp [jsonParse, parseJsonVal])
  obtain ⟨c0, t0, rfl⟩ : ∃ c0 t0, inner = c0 :: t0 := by
    rcases inner with _ | ⟨c0, t0⟩
    · exact absurd rfl hne
    · exact ⟨c0, t0, rfl⟩
  have htrim : jsTrim (jsonFenced (c0 :: t0)) = jsonFenced (c0 :: t0) := by
    refine jsTrim_eq_self ?_ ?_
    · intro c hc
      simp only [jsonFenced, List.cons_append, List.head?_cons] at hc
      cases hc
      rfl
    · intro c hc
      rw [show jsonFenced (c0 :: t0) =
        (([btChar, btChar, btChar] ++ "json".toList) ++ ('\n' :: (c0 :: t0)) ++
          ['\n', btChar, btChar]) ++ [btChar] by simp [jsonFenced]] at hc
      rw [List.getLast?_concat] at hc
      cases hc
      rfl
  have hdrop : (jsonFenced (c0 :: t0)).drop 7 =
      ('\n' :: (c0 :: t0)) ++ ('\n' :: [btChar, btChar, btChar]) := by
    unfold jsonFenced
    rw [show (7 : Nat) = ([btChar, btChar, btChar] ++ "json".toList).length from rfl,
      List.drop_left]
  have hdw : (((jsonFenced (c0 :: t0)).drop 7).dropWhile isJsWs) =
      (c0 :: t0) ++ ('\n' :: [btChar, btChar, btChar]) := by
    rw [hdrop]
    rw [show ('\n' :: (c0 :: t0)) ++ ('\n' :: [btChar, btChar, btChar]) =
      '\n' :: ((c0 :: t0) ++ ('\n' :: [btChar, btChar, btChar])) from rfl]
    rw [List.dropWhile_cons]
    rw [if_pos (by simp [isJsWs])]
    refine dropWhile_eq_self_of_head ?_
    intro c hc
    simp only [List.cons_append, List.head?_cons] at hc
    cases hc
    exact hh c0 rfl
  have htail : stripJsonTail ((c0 :: t0) ++ ('\n' :: [btChar, btChar, btChar])) =
      c0 :: t0 := by
    unfold stripJsonTail
    rw [if_pos (by
      refine List.IsSuffix.trans ?_ (List.suffix_append (c0 :: t0) _)
      exact (List.suffix_append ['\n'] [btChar, btChar, btChar] :
        [btChar, btChar, btChar] <:+ ['\n'] ++ [btChar, btChar, btChar]))]
    rw [show ((c0 :: t0) ++ ('\n' :: [btChar, btChar, btChar])).length - 3 =
      ((c0 :: t0) ++ ['\n']).length from by simp]
    rw [show (c0 :: t0) ++ ('\n' :: [btChar, btChar, btChar]) =
      ((c0 :: t0) ++ ['\n']) ++ [btChar, btChar, btChar] from by simp]
    rw [List.take_left]
    unfold dropRightWhile
    rw [show ((c0 :: t0) ++ ['\n']).reverse = '\n' :: (c0 :: t0).reverse from by simp]
    rw [List.dropWhile_cons]
    rw [if_pos (by simp [isJsWs])]
    rw [dropWhile_eq_self_of_head (fun c hc =>
      hl c (by rwa [List.getLast?_eq_head?_reverse]))]
    exact List.reverse_reverse _
  have hclean : cleanResponse (jsonFenced (c0 :: t0)) = c0 :: t0 := by
    unfold cleanResponse
    rw [if_pos (by
      unfold jsonFenced
      rw [List.append_assoc]
      exact isPrefixOf_append_self _ _)]
    rw [hdw, htail]
  constructor
  · simp only [parseCompletionResponse]
    rw [htrim, hclean, hinner]
    simp [hmap]
  · exact mapItems_length hmap

/-- C4 witness: the theorem applied at a concrete json-fenced array of
one object, discharging every hypothesis there. -/
theorem C4_json_fenced_array_primary_path_witness :
    parseCompletionResponse (jsonFenced "[\x7b\"text\":\"a\"\x7d]".toList) =
      [{ text := .str "a".toList, kind := .str "text".toList, detail := .str [],
         documentation := .str [], insertText := .str "a".toList }] :=
  (C4_json_fenced_array_primary_path "[\x7b\"text\":\"a\"\x7d]".toList
    [.obj [("text".toList, .str "a".toList)]] _
    (by rfl) (by rfl)
    (by intro c hc; cases hc; rfl)
    (by intro c hc; cases hc; rfl)).1

/-- The bare-fence counterexample input: a bare fence wrapping a
well-formed one-element JSON array of objects. -/
def c4BareInput : List Char :=
  [btChar, btChar, btChar] ++
    (('\n' :: "[\x7b\"text\":\"a\",\"kind\":\"function\"\x7d]".toList) ++
      ('\n' :: [btChar, btChar, btChar]))

/-- C4 counterexample: on a bare fence wrapping a one-element array the
global fence deletion removes the fenced region wholesale, the decode of
the empty remainder fails, and the heuristic fallback produces three
suggestions (each carrying the fallback detail literal) instead of the
one primary-path suggestion per array element the claim requires. -/
theorem C4_counterexample_bare_fence :
    cleanResponse (jsTrim c4BareInput) = [] ∧
    (parseCompletionResponse c4BareInput).length = 3 ∧
    ((parseCompletionResponse c4BareInput).all fun s =>
      s.detail.eqStr "AI suggestion".toList) = true := by
  refine ⟨rfl, rfl, rfl⟩

/-! ## Claim C5: the session gate blocks protected operations -/

/-- C5 (confirmed): with no truthy token, the request layer refuses with
the authentication-required error before any transport call, the webview
`send` handler posts the authentication-required error and the login
prompt without invoking the handler, and the completion and hover
providers return empty results; in all four cases the transport call log
is empty. -/
theorem C5_logged_out_no_network (st : SidebarState) (tok : Option (List Char))
    (transport : Transport) (endpoint : Endpoint) (payload : Payload)
    (text prompt : List Char) (enabled : Bool) (maxSuggestions : Nat)
    (hst : isAuthSt st = false) (htok : tokenTruthy tok = false) :
    query tok transport endpoint payload = (.error .authRequired, []) ∧
    handleSend st transport text =
      (st, [.errorMsg "Authentication required. Please login first.".toList,
            .showLogin], []) ∧
    provideCompletionsOp enabled st transport prompt maxSuggestions = ([], []) ∧
    provideHoverOp st transport prompt = (none, []) := by
  refine ⟨?_, ?_, ?_, ?_⟩
  · unfold query
    rw [htok]
    simp
  · unfold handleSend
    rw [hst]
    simp
  · unfold provideCompletionsOp
    cases enabled with
    | false => simp
    | true => simp [hst]
  · unfold provideHoverOp
    simp [hst]

/-- A benign transport used to witness that the gate blocks before any
call could be made. -/
def c5Transport : Transport := fun _ _ => .http 200 "OK".toList "reply".toList

/-- C5 witness: the claim theorem applied in the startup state with an
absent token. -/
theorem C5_logged_out_no_network_witness :
    query none c5Transport .chat (chatPayload "hello".toList) =
      (.error .authRequired, []) ∧
    provideHoverOp initialSidebarState c5Transport "word".toList = (none, []) :=
  ⟨(C5_logged_out_no_network initialSidebarState none c5Transport .chat
      (chatPayload "hello".toList) [] "word".toList true 5 (by rfl) (by rfl)).1,
   (C5_logged_out_no_network initialSidebarState none c5Transport .chat
      (chatPayload "hello".toList) [] "word".toList true 5 (by rfl) (by rfl)).2.2.2⟩

/-! ## Claim C6: the completion fallback policy -/

/-- The `BackendService` error a failed transport outcome is translated
to. -/
def failureError : TransportOutcome → BackendError
  | .http status statusText _ =>
    if status = 401 || status = 403 then .wrappedAuthFailed
    else .wrappedHttp status statusText
  | .networkFailure message => .wrappedNetwork message

theorem query_of_fail {tok : Option (List Char)} {transport : Transport}
    {endpoint : Endpoint} {payload : Payload}
    (htok : tokenTruthy tok = true)
    (hfail : (transport endpoint payload).isOk = false) :
    query tok transport endpoint payload =
      (.error (failureError (transport endpoint payload)), [(endpoint, payload)]) := by
  unfold query
  rw [htok]
  simp only [Bool.true_eq_false, if_false]
  rcases houtcome : transport endpoint payload with ⟨status, statusText, body⟩ | m
  · rw [houtcome] at hfail
    have hfail2 : (decide (200 ≤ status) && decide (status < 300)) = false := hfail
    simp only [failureError]
    rw [if_neg (by simp [hfail2])]
    by_cases h43 : (status = 401 || status = 403) = true
    · simp [h43]
    · simp [h43]
  · simp [failureError]

theorem query_of_ok {tok : Option (List Char)} {transport : Transport}
    {endpoint : Endpoint} {payload : Payload} {status : Nat}
    {statusText body : List Char}
    (htok : tokenTruthy tok = true)
    (houtcome : transport endpoint payload = .http status statusText body)
    (hok : (200 ≤ status && status < 300) = true) :
    query tok transport endpoint payload = (.ok body, [(endpoint, payload)]) := by
  unfold query
  rw [htok]
  simp only [Bool.true_eq_false, if_false]
  rw [houtcome]
  simp [hok]

/-- C6 (amended): when the completion-endpoint call fails, exactly one
fallback call is made to the chat endpoint with the same prompt as the
message body; when that fallback also fails the result is the empty
string with no error.  A direct chat request propagates the translated
failure to its caller.  The hover path, however, goes through the
completion path, so a hover whose calls fail yields an absent hover and
no error (refuting the original final clause; see the counterexample). -/
theorem C6_completion_fallback_policy (tok : Option (List Char))
    (transport : Transport) (prompt text : List Char)
    (htok : tokenTruthy tok = true)
    (hfail : (transport .completion (completionPayload prompt)).isOk = false) :
    (queryCompletion tok transport prompt).2 =
      [(.completion, completionPayload prompt), (.chat, chatPayload prompt)] ∧
    ((transport .chat (chatPayload prompt)).isOk = false →
      queryCompletion tok transport prompt =
        (.ok [], [(.completion, completionPayload prompt), (.chat, chatPayload prompt)])) ∧
    ((transport .chat (chatPayload text)).isOk = false →
      (queryChat tok transport text).1 =
        .error (failureError (transport .chat (chatPayload text)))) := by
  refine ⟨?_, ?_, ?_⟩
  · unfold queryCompletion
    rw [query_of_fail htok hfail]
    rcases hchat : transport .chat (chatPayload prompt) with ⟨status, statusText, body⟩ | m
    · by_cases hok : (200 ≤ status && status < 300) = true
      · rw [query_of_ok htok hchat hok]
        rfl
      · rw [query_of_fail htok
          (by rw [hchat]; unfold TransportOutcome.isOk; simpa using hok)]
        rfl
    · rw [query_of_fail htok (by rw [hchat]; rfl)]
      rfl
  · intro hchatfail
    unfold queryCompletion
    rw [query_of_fail htok hfail, query_of_fail htok hchatfail]
    rfl
  · intro hchatfail
    unfold queryChat
    rw [query_of_fail htok hchatfail]

/-- A transport on which every call fails with HTTP 500. -/
def c6Transport : Transport := fun _ _ => .http 500 "Internal Server Error".toList []

/-- C6 witness: the claim theorem applied to the all-500 transport with a
held token. -/
theorem C6_completion_fallback_policy_witness :
    (queryCompletion (some "t".toList) c6Transport "p".toList).2 =
      [(.completion, completionPayload "p".toList), (.chat, chatPayload "p".toList)] ∧
    queryCompletion (some "t".toList) c6Transport "p".toList =
      (.ok [], [(.completion, completionPayload "p".toList), (.chat, chatPayload "p".toList)]) ∧
    (queryChat (some "t".toList) c6Transport "c".toList).1 =
      .error (.wrappedHttp 500 "Internal Server Error".toList) :=
  ⟨(C6_completion_fallback_policy (some "t".toList) c6Transport "p".toList "c".toList
      (by rfl) (by rfl)).1,
   (C6_completion_fallback_policy (some "t".toList) c6Transport "p".toList "c".toList
      (by rfl) (by rfl)).2.1 (by rfl),
   (C6_completion_fallback_policy (some "t".toList) c6Transport "p".toList "c".toList
      (by rfl) (by rfl)).2.2 (by rfl)⟩

/-- C6 counterexample: a hover whose completion call and fallback call
both fail yields no hover and no error anywhere — the request layer
returns the empty string and the provider returns an absent hover — so
hover failures do not propagate to the caller as the claim states. -/
theorem C6_counterexample_hover_silent :
    provideHoverOp
      { authToken := some "t".toList,
        userInfo := some { id := some 1, email := none, conversationId := none } }
      c6Transport "word".toList =
      (none, [(.completion, completionPayload "word".toList),
              (.chat, chatPayload "word".toList)]) ∧
    (queryCompletion (some "t".toList) c6Transport "word".toList).1 = .ok [] := by
  refine ⟨rfl, rfl⟩

/-! ## Claim C7: the session presence invariant -/

/-- C7 (amended): the invariant that user info is present exactly when
the auth token is present holds at startup and is preserved by every
login outcome (success, failure, rejected credentials, transport error)
and by logout and `clearAuth`; it is not preserved by `updateAuthToken`,
which stores a token without touching the user info (see the
counterexample). -/
theorem C7_session_invariant_preserved (st : SidebarState)
    (username password : List Char) (outcome : LoginOutcome)
    (hinv : sessionInvariant st = true) :
    sessionInvariant initialSidebarState = true ∧
    sessionInvariant (handleLogin st username password outcome).1 = true ∧
    sessionInvariant (clearAuth st) = true ∧
    sessionInvariant (handleLogout st).1 = true := by
  refine ⟨rfl, ?_, rfl, rfl⟩
  unfold handleLogin
  split
  · exact hinv
  · cases outcome with
    | ok r =>
      by_cases hs : r.success = true
      · simp [hs, sessionInvariant]
      · simp only [hs]
        simpa using hinv
    | httpNotOk status => exact hinv
    | networkFailure => exact hinv

/-- C7 witness: the claim theorem applied to a concrete successful login
from the startup state. -/
theorem C7_session_invariant_preserved_witness :
    sessionInvariant (handleLogin initialSidebarState "u".toList "p".toList
      (.ok { success := true, message := none, userId := some 7, email := none,
             conversationId := none, token := none, accessToken := none })).1 = true :=
  (C7_session_invariant_preserved initialSidebarState "u".toList "p".toList
    (.ok { success := true, message := none, userId := some 7, email := none,
           conversationId := none, token := none, accessToken := none }) (by rfl)).2.1

/-- C7 counterexample: calling `updateAuthToken` in the startup state
stores a token while the user info stays absent, violating the claimed
invariant. -/
theorem C7_counterexample_updateAuthToken :
    sessionInvariant (updateAuthToken initialSidebarState "tok".toList) = false := by
  rfl

/-! ## Claim C8: authentication failures and the session -/

/-- C8 (amended): the session is cleared only by explicit logout.  The
chat-send path never writes the session fields: when the request layer
reports an authentication failure (HTTP 401/403) the handler posts the
wrapped failure message and leaves the token and user info exactly as
they were, so no transition to the logged-out state happens. -/
theorem C8_auth_failure_leaves_session (st : SidebarState) (transport : Transport)
    (text statusText body : List Char)
    (hst : isAuthSt st = true)
    (h401 : transport .chat (chatPayload text) = .http 401 statusText body) :
    (handleSend st transport text).1 = st ∧
    (handleLogout st).1 = { authToken := none, userInfo := none } ∧
    (handleSend st transport text).2.1 =
      [.errorMsg "Backend error: Authentication failed. Please log in again.".toList] := by
  have hq : queryChat st.authToken transport text =
      (.error .wrappedAuthFailed, [(.chat, chatPayload text)]) := by
    unfold queryChat
    rw [query_of_fail (by simpa [isAuthSt] using hst) (by rw [h401]; rfl), h401]
    rfl
  refine ⟨?_, rfl, ?_⟩
  · unfold handleSend
    split
    · rfl
    · rw [hq]
  · unfold handleSend
    rw [if_neg (by simp [hst])]
    rw [hq]
    rfl

/-- The logged-in state used by the C8 counterexample and witness. -/
def c8State : SidebarState :=
  { authToken := some "tok".toList,
    userInfo := some { id := some 1, email := none, conversationId := none } }

/-- A transport on which every call is rejected with HTTP 401. -/
def c8Transport : Transport := fun _ _ => .http 401 "Unauthorized".toList []

/-- C8 witness: the claim theorem applied to the concrete logged-in state
and the all-401 transport. -/
theorem C8_auth_failure_leaves_session_witness :
    (handleSend c8State c8Transport "hi".toList).1 = c8State ∧
    (handleSend c8State c8Transport "hi".toList).2.1 =
      [.errorMsg "Backend error: Authentication failed. Please log in again.".toList] :=
  ⟨(C8_auth_failure_leaves_session c8State c8Transport "hi".toList
      "Unauthorized".toList [] (by rfl) (by rfl)).1,
   (C8_auth_failure_leaves_session c8State c8Transport "hi".toList
      "Unauthorized".toList [] (by rfl) (by rfl)).2.2⟩

/-- C8 counterexample: after the request layer reports the authentication
failure, the session still holds the token and user info — it has not
transitioned to the logged-out state as the claim requires. -/
theorem C8_counterexample_session_not_cleared :
    (handleSend c8State c8Transport "hi".toList).1 = c8State ∧
    isAuthSt (handleSend c8State c8Transport "hi".toList).1 = true ∧
    (handleSend c8State c8Transport "hi".toList).1.authToken = some "tok".toList := by
  refine ⟨rfl, rfl, rfl⟩

/-! ## Claim C1: the segment-and-restore round trip

The claimed invariant fails on the code: placeholders are substituted by
first-occurrence string replacement, so a reply that already contains the
literal placeholder text makes the restoration replace the wrong
occurrence.  The theorem below evaluates the pipeline at such a reply:
one fenced region, no nested delimiters, yet the inserted placeholder
survives into the final output and the user's literal text is destroyed. -/

/-- The failing reply: the literal placeholder text followed by one
ordinary fenced region with body `hi`. -/
def c1Input : List Char :=
  "__CODE_BLOCK_0__ ".toList ++
    ([btChar, btChar, btChar] ++ ("\nhi\n".toList ++ [btChar, btChar, btChar]))

/-- C1 (code bug, evaluated at the failing input): segmentation records
the single fenced region correctly (language defaulted, body trimmed),
but the replacement of the matched span hits the user's literal
placeholder text at the start of the reply, and restoration (with the
markup transformer as the identity and each placeholder replaced by its
recorded content) again replaces that first occurrence; the final output
still contains the placeholder string, the restored text differs from the
round-trip result the claim requires, and the user's literal
`__CODE_BLOCK_0__` characters have been overwritten. -/
theorem C1_roundtrip_placeholder_collision :
    (segmentResponse c1Input).2.1 =
      [{ placeholder := phBlock 0, language := "text".toList, code := "hi".toList }] ∧
    (segmentResponse c1Input).2.2 = [] ∧
    (segmentResponse c1Input).1 = phBlock 0 ++ (' ' :: phBlock 0) ∧
    restoreIdentity (segmentResponse c1Input).1 (segmentResponse c1Input).2.1
        (segmentResponse c1Input).2.2 = "hi __CODE_BLOCK_0__".toList ∧
    containsSub (restoreIdentity (segmentResponse c1Input).1
        (segmentResponse c1Input).2.1 (segmentResponse c1Input).2.2) (phBlock 0) = true ∧
    restoreIdentity (segmentResponse c1Input).1 (segmentResponse c1Input).2.1
        (segmentResponse c1Input).2.2 ≠ "__CODE_BLOCK_0__ hi".toList := by
  refine ⟨rfl, rfl, rfl, rfl, rfl, by decide⟩

end DevAlley
